import Mathlib

/-!
Shallow embedding of the validation and key-assembly logic of the
terraform-provider-jwk repository (Go), together with theorems settling the
frozen claims about its specification.

Conventions of the embedding:
  * Terraform framework string attributes are plain Lean `String`s; a null
    attribute reads as the empty string, exactly as `types.String.ValueString`
    does in Go.
  * Go `int64` attribute values are `Int`; the Go `%` operator (truncated
    remainder) is `Int.tmod`.
  * A `ValidateConfig` method is a function from the configuration model to
    the list of diagnostics it appends, in order; the Go early `return`
    statements are mirrored by the branching structure.
  * Calls into external libraries (entropy-driven key generation, the
    `encoding/json` parser, JWK marshalling) are oracles: they are passed in
    as explicit function arguments, since the Go code treats them as opaque
    primitives.
-/

namespace JWKProvider

/-- Diagnostics carry a severity, mirroring `resp.Diagnostics.AddError` and
`resp.Diagnostics.AddWarning` in the terraform plugin framework. -/
inductive Severity
| error
| warning
deriving DecidableEq, Repr

/-- Model of `isValid` from helpers.go: membership of a value in a list of valid values. -/
def isValid (value : String) (validValues : List String) : Bool :=
  validValues.any (fun v => value == v)

/-- Model of `validUses` from provider constants: allowed values of the use attribute. -/
def validUses : List String := ["sig", "enc"]

/-! ## EC key resource (src/unnamed/part_001) -/

/-- Model of `ECSigningAlgorithmsToCurves` from the EC resource file: on signing, each
algorithm mandates one curve. -/
def ECSigningAlgorithmsToCurves : String → Option String
| "ES256" => some "P-256"
| "ES384" => some "P-384"
| "ES512" => some "P-521"
| _ => none

/-- Model of `ECEncAlgorithms` from the EC resource file: encryption algorithms with
their required sizes. -/
def ECEncAlgorithms : String → Option Int
| "ECDH-ES" => some 256
| "ECDH-ES+A128KW" => some 128
| "ECDH-ES+A192KW" => some 192
| "ECDH-ES+A256KW" => some 256
| "ECDH-PS" => some 256
| "ECDH-ES+A128GCMKW" => some 128
| "ECDH-ES+A192GCMKW" => some 192
| "ECDH-ES+A256GCMKW" => some 256
| _ => none

/-- Model of `validECCurves` from the EC resource file. -/
def validECCurves : List String := ["P-256", "P-384", "P-521"]

/-- The configuration model `jwkECKeyModel` (the computed json attribute is
omitted: `ValidateConfig` never reads it). -/
structure ECKeyModel where
  kid : String
  use : String
  crv : String
  alg : String
deriving DecidableEq, Repr

/-- The distinct diagnostics `jwkECKeyResource.ValidateConfig` can emit, in
source order of their `AddError` sites. -/
inductive ECDiag
| invalidSigAlg
| inconsistentCrv
| invalidEncAlg
| invalidEncCrv
| invalidUse
deriving DecidableEq, Repr

/-- Severity of each EC diagnostic: every site in the Go method is `AddError`. -/
def ECDiag.severity : ECDiag → Severity
| _ => Severity.error

/-- Model of `jwkECKeyResource.ValidateConfig` (src/unnamed/part_001, lines 185-241):
for use sig the alg must be a known signing algorithm and the declared crv
must equal the curve that algorithm mandates; for use enc the alg must be a
known encryption algorithm and the crv a supported curve; otherwise the use
itself is invalid.  Each error site returns immediately. -/
def validateECConfig (m : ECKeyModel) : List ECDiag :=
  if m.use = "sig" then
    match ECSigningAlgorithmsToCurves m.alg with
    | none => [ECDiag.invalidSigAlg]
    | some expectedCrv =>
      if m.crv ≠ expectedCrv then [ECDiag.inconsistentCrv] else []
  else if m.use = "enc" then
    match ECEncAlgorithms m.alg with
    | none => [ECDiag.invalidEncAlg]
    | some _ =>
      if ¬ isValid m.crv validECCurves then [ECDiag.invalidEncCrv] else []
  else [ECDiag.invalidUse]

/-- A diagnostics list blocks resource creation when it holds an error. -/
def hasECError (ds : List ECDiag) : Bool :=
  ds.any (fun d => d.severity == Severity.error)

/-! ## OKP key-pair resource (src/unnamed/part_009) -/

/-- The configuration model `jwkOKPKeyModel` (computed attributes omitted). -/
structure OKPKeyModel where
  kid : String
  use : String
  alg : String
deriving DecidableEq, Repr

/-- The distinct diagnostics `jwkOKPKeyResource.ValidateConfig` can emit. -/
inductive OKPDiag
| invalidUse
| invalidSigAlg
| invalidEncAlg
deriving DecidableEq, Repr

/-- Model of `jwkOKPKeyResource.ValidateConfig` (src/unnamed/part_009, lines 159-194):
use must be sig or enc; under sig the alg must be Ed25519 or Ed448, under enc
it must be X25519 or X448.  Each error site returns immediately. -/
def validateOKPConfig (m : OKPKeyModel) : List OKPDiag :=
  if ¬ isValid m.use validUses then [OKPDiag.invalidUse]
  else if m.use = "sig" ∧ ¬ isValid m.alg ["Ed25519", "Ed448"] then
    [OKPDiag.invalidSigAlg]
  else if m.use = "enc" ∧ ¬ isValid m.alg ["X25519", "X448"] then
    [OKPDiag.invalidEncAlg]
  else []

/-! ## oct (symmetric) key resource (src/internal/provider/resource_jwkOctKey.go) -/

/-- Model of `OCTSignatureAlgorithms` from resource_jwkOctKey.go: signature algorithms
with their minimum key sizes in bits. -/
def OCTSignatureAlgorithms : String → Option Int
| "HS256" => some 256
| "HS384" => some 384
| "HS512" => some 512
| "none" => some 0
| _ => none

/-- Model of `OCTSEncryptionAlgorithms` from resource_jwkOctKey.go: encryption
algorithms with their minimum key sizes in bits. -/
def OCTSEncryptionAlgorithms : String → Option Int
| "A128KW" => some 128
| "A192KW" => some 192
| "A256KW" => some 256
| "dir" => some 0
| "A128GCMKW" => some 128
| "A192GCMKW" => some 192
| "A256GCMKW" => some 256
| "PBES2-HS256+A128KW" => some 256
| "PBES2-HS384+A192KW" => some 384
| "PBES2-HS512+A256KW" => some 512
| _ => none

/-- The configuration model `jwkOctKeyModel` (computed json attribute
omitted).  A null alg attribute reads as the empty string. -/
structure OctKeyModel where
  kid : String
  use : String
  alg : String
  size : Int
deriving DecidableEq, Repr

/-- The distinct diagnostics `jwkOctKeyResource.ValidateConfig` can emit, in
source order of their Add sites. -/
inductive OctDiag
| invalidUse
| sizeNotDivisible
| invalidEncAlg
| encKeySizeTooSmall
| invalidSigAlg
| sigKeySizeTooSmall
| insecureKeySizeWarning
deriving DecidableEq, Repr

/-- Severity of each oct diagnostic: only the final size recommendation is a
warning (`AddWarning`); every other site is `AddError`. -/
def OctDiag.severity : OctDiag → Severity
| OctDiag.insecureKeySizeWarning => Severity.warning
| _ => Severity.error

/-- The alg block of `jwkOctKeyResource.ValidateConfig`: when a non-empty alg
is declared it must be in the table for the declared use, and the size must
reach that algorithm's minimum.  Returns the error it raises, if any. -/
def octAlgCheck (m : OctKeyModel) : Option OctDiag :=
  if m.alg ≠ "" then
    if m.use = "enc" then
      match OCTSEncryptionAlgorithms m.alg with
      | none => some OctDiag.invalidEncAlg
      | some requiredSize =>
        if m.size < requiredSize then some OctDiag.encKeySizeTooSmall else none
    else if m.use = "sig" then
      match OCTSignatureAlgorithms m.alg with
      | none => some OctDiag.invalidSigAlg
      | some requiredSize =>
        if m.size < requiredSize then some OctDiag.sigKeySizeTooSmall else none
    else none
  else none

/-- The allowed computation inside the warning block of
`jwkOctKeyResource.ValidateConfig`: a sub-256-bit size is explicitly allowed
when the declared algorithm's own minimum is satisfied. -/
def octSizeAllowed (m : OctKeyModel) : Bool :=
  if m.use = "enc" then
    match OCTSEncryptionAlgorithms m.alg with
    | some requiredSize => decide (requiredSize ≤ m.size)
    | none => false
  else if m.use = "sig" then
    match OCTSignatureAlgorithms m.alg with
    | some requiredSize => decide (requiredSize ≤ m.size)
    | none => false
  else false

/-- The warning block of `jwkOctKeyResource.ValidateConfig`: unless alg is
none or dir, a size below the 256-bit security recommendation that is not
explicitly allowed by the algorithm table draws a warning. -/
def octWarnBlock (m : OctKeyModel) : List OctDiag :=
  if m.alg ≠ "none" ∧ m.alg ≠ "dir" then
    if m.size < 256 ∧ ¬ octSizeAllowed m then
      [OctDiag.insecureKeySizeWarning]
    else []
  else []

/-- Model of `jwkOctKeyResource.ValidateConfig`
(src/internal/provider/resource_jwkOctKey.go, lines 190-293): use must be sig
or enc, size must be divisible by 8 (Go `%` is truncated remainder), the
declared alg must be valid for the use with its minimum size met, and finally
a warning is emitted for sub-256-bit sizes not covered by the alg table. -/
def validateOctConfig (m : OctKeyModel) : List OctDiag :=
  if ¬ isValid m.use validUses then [OctDiag.invalidUse]
  else if m.size.tmod 8 ≠ 0 then [OctDiag.sizeNotDivisible]
  else
    match octAlgCheck m with
    | some d => [d]
    | none => octWarnBlock m

/-- A diagnostics list blocks resource creation when it holds an error. -/
def hasOctError (ds : List OctDiag) : Bool :=
  ds.any (fun d => d.severity == Severity.error)

/-! ## RSA key resource (src/unnamed/part_012) -/

/-- Model of `RSASignatureAlgorithms` from the RSA resource file: recommended RSA key
sizes for signature algorithms. -/
def RSASignatureAlgorithms : String → Option Int
| "RS256" => some 2048
| "RS384" => some 3072
| "RS512" => some 4096
| "PS256" => some 2048
| "PS384" => some 3072
| "PS512" => some 4096
| _ => none

/-- Model of `RSAEncryptionAlgorithms` from the RSA resource file. -/
def RSAEncryptionAlgorithms : String → Option Int
| "RSA1_5" => some 2048
| "RSA-OAEP" => some 2048
| "RSA-OAEP-256" => some 2048
| _ => none

/-- The configuration model `jwkRSAKeyModel` (computed json attribute
omitted).  A null alg attribute reads as the empty string. -/
structure RSAKeyModel where
  kid : String
  use : String
  size : Int
  alg : String
deriving DecidableEq, Repr

/-- The distinct diagnostics `jwkRSAKeyResource.ValidateConfig` can emit, in
source order of their Add sites. -/
inductive RSADiag
| invalidUse
| sizeBelow2048
| invalidSigAlg
| suboptimalKeySizeWarning
| invalidEncAlg
| noAlgEncWarning
| noAlgSigWarning
deriving DecidableEq, Repr

/-- Severity of each RSA diagnostic: the suboptimal-size and missing-alg
sites are `AddWarning`; every other site is `AddError`. -/
def RSADiag.severity : RSADiag → Severity
| RSADiag.suboptimalKeySizeWarning => Severity.warning
| RSADiag.noAlgEncWarning => Severity.warning
| RSADiag.noAlgSigWarning => Severity.warning
| _ => Severity.error

/-- Model of `jwkRSAKeyResource.ValidateConfig` (src/unnamed/part_012, lines 258-342):
use must be sig or enc; a size below 2048 is a hard error; under sig a
declared alg must be a known signature algorithm, and a size below its
recommended minimum draws a warning (no early return); under enc a declared
alg must be a known encryption algorithm; a missing alg draws a warning. -/
def validateRSAConfig (m : RSAKeyModel) : List RSADiag :=
  if ¬ isValid m.use validUses then [RSADiag.invalidUse]
  else if m.size < 2048 then [RSADiag.sizeBelow2048]
  else if m.alg ≠ "" ∧ m.use = "sig" then
    match RSASignatureAlgorithms m.alg with
    | none => [RSADiag.invalidSigAlg]
    | some expectedSize =>
      if m.size < expectedSize then [RSADiag.suboptimalKeySizeWarning] else []
  else if m.alg ≠ "" ∧ m.use = "enc" then
    match RSAEncryptionAlgorithms m.alg with
    | none => [RSADiag.invalidEncAlg]
    | some _ => []
  else
    if m.use = "enc" then [RSADiag.noAlgEncWarning] else [RSADiag.noAlgSigWarning]

/-- A diagnostics list blocks resource creation when it holds an error. -/
def hasRSAError (ds : List RSADiag) : Bool :=
  ds.any (fun d => d.severity == Severity.error)

/-! ## Key generation helpers (src/unnamed/part_006) -/

/-- Abstract key material of a JWK, mirroring the concrete Go key types that
can populate the `Key` field of a `jose.JSONWebKey`.  Numeric parameters are
abstract naturals, byte strings are lists of bytes. -/
inductive KeyMaterial
| rsaPriv (n e d : Nat)
| rsaPub (n e : Nat)
| ecPriv (crv : String) (x y d : Nat)
| ecPub (crv : String) (x y : Nat)
| ed25519Priv (bytes : List Nat)
| ed25519Pub (bytes : List Nat)
| octBytes (bytes : List Nat)
deriving DecidableEq, Repr

/-- The embedding of `jose.JSONWebKey`: key material plus the use, algorithm
and key-id fields the provider sets. -/
structure JoseJWK where
  key : KeyMaterial
  use : String
  algorithm : String
  keyID : String
deriving DecidableEq, Repr

/-- Model of `validRSASizes` from src/unnamed/part_006: the sizes accepted by
`generateRSAJWK`. -/
def validRSASizes (bits : Int) : Bool :=
  bits == 512 || bits == 1024 || bits == 2048 || bits == 3072 || bits == 4096

/-- Model of `generateRSAJWK` (src/unnamed/part_006, lines 166-183): reject a size not
in `validRSASizes`, otherwise generate a private key of that size and wrap it
with the given kid, use and alg.  `rsa.GenerateKey(rand.Reader, bits)` is the
oracle `genKey`, a function of the requested bit size standing for the
entropy-driven library call. -/
def generateRSAJWK (genKey : Int → KeyMaterial) (kid use alg : String)
    (bits : Int) : Except String JoseJWK :=
  if ¬ validRSASizes bits then
    Except.error "Invalid RSA key size. Expected one of: 2048, 3072, 4096"
  else
    Except.ok { key := genKey bits, use := use, algorithm := alg, keyID := kid }

/-- The result of `ed25519.GenerateKey(rand.Reader)`: a public and a private
key, standing for the entropy-driven library call. -/
structure Ed25519KeyPair where
  publicKey : List Nat
  privKey : List Nat
deriving DecidableEq, Repr

/-- Model of `generateOKPJWK` (src/unnamed/part_006, lines 209-231): generate an
Ed25519 key pair (the `ed25519.GenerateKey` oracle result `pair` takes no
other input) and wrap the private and the public key separately, both with
the same kid, use and alg.  The first component is the private JWK. -/
def generateOKPJWK (pair : Ed25519KeyPair) (kid use alg : String) :
    JoseJWK × JoseJWK :=
  ({ key := KeyMaterial.ed25519Priv pair.privKey, use := use,
     algorithm := alg, keyID := kid },
   { key := KeyMaterial.ed25519Pub pair.publicKey, use := use,
     algorithm := alg, keyID := kid })

/-! ## Keyset creation (src/unnamed/part_006, CreateJWKKeyset) -/

/-- The serialization `json.Marshal` gives a `JWKKeyset` struct value: the
keys field holds the raw messages in order.  Mirrors the struct tag
`json:"keys"`. -/
def marshalKeyset (raws : List String) : String :=
  "\x7b\"keys\":[" ++ String.intercalate "," raws ++ "]\x7d"

/-- The loop of `CreateJWKKeyset` (src/unnamed/part_006, lines 142-149): each
element is passed to `json.Unmarshal` into a `json.RawMessage` (the oracle
`unmarshalRaw`, none meaning invalid JSON); the first failure aborts with an
error, and successes are appended in input order. -/
def collectRawKeys (unmarshalRaw : String → Option String) :
    List String → Except String (List String)
| [] => Except.ok []
| keyJSON :: rest =>
  match unmarshalRaw keyJSON with
  | none => Except.error "Invalid key JSON"
  | some raw =>
    match collectRawKeys unmarshalRaw rest with
    | Except.error e => Except.error e
    | Except.ok raws => Except.ok (raw :: raws)

/-- Model of `CreateJWKKeyset` (src/unnamed/part_006, lines 136-157): parse every
element, then marshal the keys wrapped in a keyset envelope. -/
def CreateJWKKeyset (unmarshalRaw : String → Option String)
    (keys : List String) : Except String String :=
  match collectRawKeys unmarshalRaw keys with
  | Except.error e => Except.error e
  | Except.ok raws => Except.ok (marshalKeyset raws)

/-! ## public_key provider function (src/internal/provider/function_public_key.go) -/

/-- Whether the key material is already public, mirroring
`jose.JSONWebKey.IsPublic`. -/
def KeyMaterial.isPublic : KeyMaterial → Bool
| KeyMaterial.rsaPub _ _ => true
| KeyMaterial.ecPub _ _ _ => true
| KeyMaterial.ed25519Pub _ => true
| _ => false

/-- Whether the key material is a private RSA or EC key (the inputs claim C6
ranges over). -/
def KeyMaterial.isPrivateRSAorEC : KeyMaterial → Bool
| KeyMaterial.rsaPriv _ _ _ => true
| KeyMaterial.ecPriv _ _ _ _ => true
| _ => false

/-- The zero `jose.JSONWebKey` value returned by `Public` for unsupported key
types. -/
def zeroJWK : JoseJWK :=
  { key := KeyMaterial.octBytes [], use := "", algorithm := "", keyID := "" }

/-- Model of `jose.JSONWebKey.Public` from the go-jose library (the standard
public-key extraction the provider calls): an already-public key is returned
unchanged; a private RSA, EC or Ed25519 key is replaced by its public half
with every other field kept; anything else yields the zero key. -/
def josePublic (jwk : JoseJWK) : JoseJWK :=
  if jwk.key.isPublic then jwk
  else
    match jwk.key with
    | KeyMaterial.rsaPriv n e _ => { jwk with key := KeyMaterial.rsaPub n e }
    | KeyMaterial.ecPriv crv x y _ => { jwk with key := KeyMaterial.ecPub crv x y }
    | KeyMaterial.ed25519Priv bytes => { jwk with key := KeyMaterial.ed25519Pub bytes }
    | _ => zeroJWK

/-- Model of `publicKeyFunction.Run`
(src/internal/provider/function_public_key.go, lines 41-71): parse the
private JWK string (the `json2jwk` call is the oracle `parse`), take its
public half with `Public`, override the key id when the kid argument is
non-empty, and marshal the result (the `json.Marshal` call is the oracle
`marshal`).  The function reads nothing but its two string arguments, so it
is a pure function of them. -/
def publicKeyRun (parse : String → Option JoseJWK) (marshal : JoseJWK → String)
    (privateJWKStr kid : String) : Except String String :=
  match parse privateJWKStr with
  | none => Except.error "Failed convert private key to JWK"
  | some privateJWK =>
    let publicJWK := josePublic privateJWK
    let publicJWK := if kid ≠ "" then { publicJWK with keyID := kid } else publicJWK
    Except.ok (marshal publicJWK)

/-! ## oct import (src/internal/provider/resource_jwkOctKey.go, ImportState) -/

/-- A JSON value as the Go import code sees it after `json.Unmarshal` into
`map[string]interface` values: the code only ever asserts values to `string`,
so the embedding keeps strings and collapses every other value. -/
inductive JVal
| str (s : String)
| nonString
deriving DecidableEq, Repr

/-- A decoded JSON object: field names with their values. -/
abbrev JObj := List (String × JVal)

/-- The Go pattern `v, ok := obj[name].(string)`: the field must be present
and hold a string. -/
def jStringField (obj : JObj) (name : String) : Option String :=
  match obj.lookup name with
  | some (JVal.str s) => some s
  | _ => none

/-- Value of one base64url alphabet character (RFC 4648 section 5), as used
by Go `base64.RawURLEncoding`. -/
def b64urlCharVal (c : Char) : Option Nat :=
  if 65 ≤ c.toNat ∧ c.toNat ≤ 90 then some (c.toNat - 65)
  else if 97 ≤ c.toNat ∧ c.toNat ≤ 122 then some (c.toNat - 97 + 26)
  else if 48 ≤ c.toNat ∧ c.toNat ≤ 57 then some (c.toNat - 48 + 52)
  else if c = Char.ofNat 45 then some 62
  else if c = Char.ofNat 95 then some 63
  else none

/-- Regroup 6-bit values into bytes, four at a time, as Go base64 decoding
does with no padding: a trailing group of one character is corrupt input, two
characters yield one byte, three yield two. -/
def b64Regroup : List Nat → Option (List Nat)
| [] => some []
| [_] => none
| [a, b] => some [a * 4 + b / 16]
| [a, b, c] => some [a * 4 + b / 16, b % 16 * 16 + c / 4]
| a :: b :: c :: d :: rest =>
  match b64Regroup rest with
  | none => none
  | some bytes =>
    some ([a * 4 + b / 16, b % 16 * 16 + c / 4, c % 4 * 64 + d] ++ bytes)

/-- Model of `base64.RawURLEncoding.DecodeString` from the Go standard library: skip
newline characters, map every remaining character through the base64url
alphabet (any other character is corrupt input), and regroup the 6-bit values
into bytes with no padding. -/
def base64RawURLDecode (s : String) : Option (List Nat) :=
  match (s.data.filter (fun c => c ≠ Char.ofNat 10 ∧ c ≠ Char.ofNat 13)).mapM
      b64urlCharVal with
  | none => none
  | some vals => b64Regroup vals

/-- The state model written by the oct import: declared attributes plus the
json attribute. -/
structure OctImportedState where
  kid : String
  use : String
  alg : String
  size : Int
  octKeyJSON : String
deriving DecidableEq, Repr

/-- The distinct errors `jwkOctKeyResource.ImportState` can emit, in source
order of their `AddError` sites. -/
inductive OctImportError
| invalidJWKJSON
| missingKid
| missingOrInvalidUse
| invalidKeyType
| invalidKeyMaterial
| missingKeyMaterial
deriving DecidableEq, Repr

/-- Model of `jwkOctKeyResource.ImportState`
(src/internal/provider/resource_jwkOctKey.go, lines 295-371): parse the given
id as JSON (the `json.Unmarshal` into a map is the oracle `parse`),
require a string kid, a use equal to sig or enc, a kty equal to oct, default
alg to the empty string when absent, decode the k field with
`base64.RawURLEncoding` to compute the size as eight times the byte length,
and store the import id verbatim as the json attribute. -/
def octImportState (parse : String → Option JObj) (id : String) :
    Except OctImportError OctImportedState :=
  match parse id with
  | none => Except.error OctImportError.invalidJWKJSON
  | some jwk =>
    match jStringField jwk "kid" with
    | none => Except.error OctImportError.missingKid
    | some kid =>
      match jStringField jwk "use" with
      | none => Except.error OctImportError.missingOrInvalidUse
      | some use =>
        if use ≠ "sig" ∧ use ≠ "enc" then
          Except.error OctImportError.missingOrInvalidUse
        else
          match jStringField jwk "kty" with
          | none => Except.error OctImportError.invalidKeyType
          | some kty =>
            if kty ≠ "oct" then Except.error OctImportError.invalidKeyType
            else
              let alg := (jStringField jwk "alg").getD ""
              match jStringField jwk "k" with
              | none => Except.error OctImportError.missingKeyMaterial
              | some k =>
                match base64RawURLDecode k with
                | none => Except.error OctImportError.invalidKeyMaterial
                | some keyBytes =>
                  Except.ok { kid := kid, use := use, alg := alg,
                              size := (keyBytes.length : Int) * 8,
                              octKeyJSON := id }

/-! ## Theorems -/

/-- Inversion for the signing-algorithm-to-curve table: the only mappings are
ES256 to P-256, ES384 to P-384 and ES512 to P-521. -/
theorem ecSigMap_eq_some_iff (a c : String) :
    ECSigningAlgorithmsToCurves a = some c ↔
      ((a = "ES256" ∧ c = "P-256") ∨ (a = "ES384" ∧ c = "P-384") ∨
       (a = "ES512" ∧ c = "P-521")) := by
  constructor
  · intro h
    unfold ECSigningAlgorithmsToCurves at h
    split at h
    · exact Or.inl ⟨rfl, (Option.some.inj h).symm⟩
    · exact Or.inr (Or.inl ⟨rfl, (Option.some.inj h).symm⟩)
    · exact Or.inr (Or.inr ⟨rfl, (Option.some.inj h).symm⟩)
    · exact absurd h (by simp)
  · rintro (⟨ha, hc⟩ | ⟨ha, hc⟩ | ⟨ha, hc⟩) <;> subst ha <;> subst hc <;> rfl

/-- Every diagnostic of the EC resource is an error, so a non-empty
diagnostics list blocks creation. -/
theorem ecDiags_all_errors (m : ECKeyModel) :
    validateECConfig m ≠ [] → hasECError (validateECConfig m) = true := by
  have hd : ∀ d : ECDiag, hasECError [d] = true := by
    intro d
    cases d <;> rfl
  unfold validateECConfig
  split
  · split
    · intro _
      exact hd _
    · split
      · intro _
        exact hd _
      · intro hne
        exact absurd rfl hne
  · split
    · split
      · intro _
        exact hd _
      · split
        · intro _
          exact hd _
        · intro hne
          exact absurd rfl hne
    · intro _
      exact hd _

/-- C1: for the EC key resource with use sig, configuration validation
accepts exactly the algorithms ES256, ES384 and ES512, each with the curve it
mandates (ES256 with P-256, ES384 with P-384, ES512 with P-521); every other
combination, in particular a curve mismatch, yields an error diagnostic,
which blocks key creation. -/
theorem ecValidateConfig_sig_alg_curve (m : ECKeyModel) (h : m.use = "sig") :
    (validateECConfig m = [] ↔
      ((m.alg = "ES256" ∧ m.crv = "P-256") ∨ (m.alg = "ES384" ∧ m.crv = "P-384") ∨
       (m.alg = "ES512" ∧ m.crv = "P-521")))
    ∧ (validateECConfig m ≠ [] → hasECError (validateECConfig m) = true) := by
  refine ⟨?_, ecDiags_all_errors m⟩
  unfold validateECConfig
  rw [if_pos h]
  constructor
  · intro he
    rcases h3 : ECSigningAlgorithmsToCurves m.alg with _ | c
    · rw [h3] at he
      exact absurd he (by simp)
    · rw [h3] at he
      have he2 : (if m.crv ≠ c then [ECDiag.inconsistentCrv] else ([] : List ECDiag)) = [] := he
      have hc : m.crv = c := by
        by_contra hne
        rw [if_pos hne] at he2
        exact absurd he2 (by simp)
      rcases (ecSigMap_eq_some_iff m.alg c).mp h3 with ⟨ha, hm⟩ | ⟨ha, hm⟩ | ⟨ha, hm⟩
      · exact Or.inl ⟨ha, hc.trans hm⟩
      · exact Or.inr (Or.inl ⟨ha, hc.trans hm⟩)
      · exact Or.inr (Or.inr ⟨ha, hc.trans hm⟩)
  · intro hcase
    have h3 : ECSigningAlgorithmsToCurves m.alg = some m.crv := by
      exact (ecSigMap_eq_some_iff m.alg m.crv).mpr hcase
    simp [h3]

/-- Witness for C1: the spec's own example, alg ES256 with crv P-384 under
use sig, is rejected with an error diagnostic. -/
theorem ecValidateConfig_sig_alg_curve_witness :
    validateECConfig { kid := "k1", use := "sig", crv := "P-384", alg := "ES256" } ≠ [] ∧
    hasECError (validateECConfig
      { kid := "k1", use := "sig", crv := "P-384", alg := "ES256" }) = true := by
  have h := ecValidateConfig_sig_alg_curve
    { kid := "k1", use := "sig", crv := "P-384", alg := "ES256" } rfl
  refine ⟨?_, h.2 (by decide)⟩
  intro he
  rcases h.1.mp he with ⟨ha, hc⟩ | ⟨ha, hc⟩ | ⟨ha, hc⟩ <;> simp_all

/-- C9: for the OKP keypair resource, under use sig validation accepts
exactly alg Ed25519 or Ed448, and under use enc exactly alg X25519 or X448;
every other value is rejected, so no signing algorithm validates under enc
and no encryption algorithm validates under sig. -/
theorem okpValidateConfig_alg_matches_use (m : OKPKeyModel) :
    (m.use = "sig" → (validateOKPConfig m = [] ↔ (m.alg = "Ed25519" ∨ m.alg = "Ed448")))
    ∧ (m.use = "enc" → (validateOKPConfig m = [] ↔ (m.alg = "X25519" ∨ m.alg = "X448"))) := by
  constructor <;> intro h <;> unfold validateOKPConfig <;> split_ifs <;>
    simp_all [isValid, validUses] <;> tauto

/-- Witness for C9: Ed448 validates under sig, and X25519 is rejected under
sig, on concrete configurations. -/
theorem okpValidateConfig_alg_matches_use_witness :
    validateOKPConfig { kid := "k1", use := "sig", alg := "Ed448" } = [] ∧
    validateOKPConfig { kid := "k2", use := "enc", alg := "Ed25519" } ≠ [] := by
  constructor
  · exact ((okpValidateConfig_alg_matches_use
      { kid := "k1", use := "sig", alg := "Ed448" }).1 rfl).mpr (Or.inr rfl)
  · intro he
    rcases ((okpValidateConfig_alg_matches_use
      { kid := "k2", use := "enc", alg := "Ed25519" }).2 rfl).mp he with hc | hc <;>
      simp_all

/-- C10: OKP key-pair generation wraps whatever `ed25519.GenerateKey`
returns, for every declared alg (Ed448, X25519 and X448 included): the key
material is Ed25519 material, is independent of the declared alg, and the
private and public JWKs carry identical kid, use and alg, the alg being
copied verbatim. -/
theorem generateOKPJWK_always_ed25519 (pair : Ed25519KeyPair)
    (kid use alg otherAlg : String) :
    ((generateOKPJWK pair kid use alg).1.key = KeyMaterial.ed25519Priv pair.privKey
      ∧ (generateOKPJWK pair kid use alg).2.key = KeyMaterial.ed25519Pub pair.publicKey)
    ∧ ((generateOKPJWK pair kid use alg).1.key = (generateOKPJWK pair kid use otherAlg).1.key
      ∧ (generateOKPJWK pair kid use alg).2.key = (generateOKPJWK pair kid use otherAlg).2.key)
    ∧ ((generateOKPJWK pair kid use alg).1.keyID = (generateOKPJWK pair kid use alg).2.keyID
      ∧ (generateOKPJWK pair kid use alg).1.use = (generateOKPJWK pair kid use alg).2.use
      ∧ (generateOKPJWK pair kid use alg).1.algorithm = (generateOKPJWK pair kid use alg).2.algorithm)
    ∧ ((generateOKPJWK pair kid use alg).1.algorithm = alg
      ∧ (generateOKPJWK pair kid use alg).1.keyID = kid
      ∧ (generateOKPJWK pair kid use alg).1.use = use) :=
  ⟨⟨rfl, rfl⟩, ⟨rfl, rfl⟩, ⟨rfl, rfl, rfl⟩, ⟨rfl, rfl, rfl⟩⟩

/-- C3: RSA key creation succeeds exactly when the declared size is in the
accepted set of `validRSASizes` (512, 1024, 2048, 3072 or 4096); any other
size yields an error and no JWK. -/
theorem generateRSAJWK_size_gate (genKey : Int → KeyMaterial)
    (kid use alg : String) (bits : Int) :
    ((∃ jwk, generateRSAJWK genKey kid use alg bits = Except.ok jwk) ↔
      (bits = 512 ∨ bits = 1024 ∨ bits = 2048 ∨ bits = 3072 ∨ bits = 4096))
    ∧ (validRSASizes bits = true →
        generateRSAJWK genKey kid use alg bits =
          Except.ok { key := genKey bits, use := use, algorithm := alg, keyID := kid }) := by
  constructor
  · unfold generateRSAJWK
    by_cases hv : validRSASizes bits = true
    · rw [if_neg (by simp [hv])]
      simp only [validRSASizes, Bool.or_eq_true, beq_iff_eq] at hv
      constructor
      · intro _
        tauto
      · intro _
        exact ⟨_, rfl⟩
    · rw [if_pos (by simp [hv])]
      simp only [validRSASizes, Bool.or_eq_true, beq_iff_eq] at hv
      constructor
      · rintro ⟨jwk, hj⟩
        exact absurd hj (by simp)
      · intro hc
        tauto
  · intro hv
    unfold generateRSAJWK
    rw [if_neg (by simp [hv])]

/-- Witness for C3: size 2048 is accepted and generation proceeds; size 1000
is rejected. -/
theorem generateRSAJWK_size_gate_witness :
    generateRSAJWK (fun _ => KeyMaterial.octBytes []) "k1" "sig" "RS256" 2048 =
      Except.ok { key := KeyMaterial.octBytes [], use := "sig",
                  algorithm := "RS256", keyID := "k1" }
    ∧ ¬ ∃ jwk, generateRSAJWK (fun _ => KeyMaterial.octBytes [])
        "k1" "sig" "RS256" 1000 = Except.ok jwk := by
  constructor
  · exact (generateRSAJWK_size_gate (fun _ => KeyMaterial.octBytes [])
      "k1" "sig" "RS256" 2048).2 (by decide)
  · intro hex
    rcases (generateRSAJWK_size_gate (fun _ => KeyMaterial.octBytes [])
      "k1" "sig" "RS256" 1000).1.mp hex with h | h | h | h | h <;> simp_all

/-- Inversion for the oct alg block: the only errors it can raise are the
four algorithm diagnostics, never the divisibility one. -/
theorem octAlgCheck_cases (m : OctKeyModel) (d : OctDiag)
    (h : octAlgCheck m = some d) :
    d = OctDiag.invalidEncAlg ∨ d = OctDiag.encKeySizeTooSmall ∨
    d = OctDiag.invalidSigAlg ∨ d = OctDiag.sigKeySizeTooSmall := by
  unfold octAlgCheck at h
  split_ifs at h <;>
    first
    | exact absurd h (by simp)
    | (split at h <;> simp_all)

/-- C8: an oct key size not divisible by 8 always draws an error diagnostic
(blocking creation), and when the size is divisible by 8 the divisibility
check never fires. -/
theorem octValidateConfig_size_divisibility (m : OctKeyModel) :
    (m.size.tmod 8 ≠ 0 → hasOctError (validateOctConfig m) = true)
    ∧ (m.size.tmod 8 = 0 → OctDiag.sizeNotDivisible ∉ validateOctConfig m) := by
  constructor
  · intro hmod
    unfold validateOctConfig
    by_cases hu : isValid m.use validUses = true
    · rw [if_neg (by simp [hu]), if_pos hmod]
      rfl
    · rw [if_pos (by simp [hu])]
      rfl
  · intro hmod
    unfold validateOctConfig
    by_cases hu : isValid m.use validUses = true
    · rw [if_neg (by simp [hu]), if_neg (by simp [hmod])]
      rcases hac : octAlgCheck m with _ | d
      · simp only [hac]
        show OctDiag.sizeNotDivisible ∉ octWarnBlock m
        unfold octWarnBlock
        split_ifs <;> simp
      · simp only [hac]
        show OctDiag.sizeNotDivisible ∉ [d]
        rcases octAlgCheck_cases m d hac with h | h | h | h <;> subst h <;> simp
    · rw [if_pos (by simp [hu])]
      simp

/-- Witness for C8: size 12 is rejected with an error, size 32 passes the
divisibility check. -/
theorem octValidateConfig_size_divisibility_witness :
    hasOctError (validateOctConfig { kid := "k1", use := "sig", alg := "", size := 12 }) = true
    ∧ OctDiag.sizeNotDivisible ∉
        validateOctConfig { kid := "k2", use := "sig", alg := "", size := 32 } := by
  constructor
  · exact (octValidateConfig_size_divisibility
      { kid := "k1", use := "sig", alg := "", size := 12 }).1 (by decide)
  · exact (octValidateConfig_size_divisibility
      { kid := "k2", use := "sig", alg := "", size := 32 }).2 (by decide)

/-- Counterexample to C5 as stated: use enc with alg A128KW and size 128 is
below 256 bits and alg is neither none nor dir, yet validation emits no
diagnostic at all, because the declared algorithm's own 128-bit minimum is
met. -/
theorem octInsecureWarning_counterexample :
    ((128 : Int) < 256 ∧ "A128KW" ≠ "none" ∧ "A128KW" ≠ "dir")
    ∧ validateOctConfig { kid := "k1", use := "enc", alg := "A128KW", size := 128 } = []
    ∧ OctDiag.insecureKeySizeWarning ∉
        validateOctConfig { kid := "k1", use := "enc", alg := "A128KW", size := 128 } := by
  decide

/-- C5 (amended): for an oct configuration that passes the use, divisibility
and algorithm checks, the insecure-key-size warning is emitted exactly when
the size is below 256 bits, alg is neither none nor dir, and the declared
algorithm's own minimum (if alg names one for the declared use) does not
cover the size; the warning is non-fatal and such a configuration carries no
error. -/
theorem octInsecureWarning_iff (m : OctKeyModel)
    (hu : isValid m.use validUses = true)
    (hdiv : m.size.tmod 8 = 0)
    (halg : octAlgCheck m = none) :
    (OctDiag.insecureKeySizeWarning ∈ validateOctConfig m ↔
      (m.size < 256 ∧ m.alg ≠ "none" ∧ m.alg ≠ "dir" ∧ octSizeAllowed m = false))
    ∧ hasOctError (validateOctConfig m) = false := by
  have hv : validateOctConfig m = octWarnBlock m := by
    unfold validateOctConfig
    rw [if_neg (by simp [hu]), if_neg (by simp [hdiv])]
    simp only [halg]
  rw [hv]
  constructor
  · unfold octWarnBlock
    split_ifs with h1 h2
    · simp only [List.mem_singleton, true_iff]
      exact ⟨h2.1, h1.1, h1.2, by simpa using h2.2⟩
    · simp only [List.not_mem_nil, false_iff]
      rintro ⟨hs, _, _, hall⟩
      exact h2 ⟨hs, by simp [hall]⟩
    · simp only [List.not_mem_nil, false_iff]
      rintro ⟨_, hn, hd, _⟩
      exact h1 ⟨hn, hd⟩
  · unfold octWarnBlock
    split_ifs <;> rfl

/-- Witness for C5 (amended): size 64 with no declared alg draws the warning
and no error. -/
theorem octInsecureWarning_iff_witness :
    OctDiag.insecureKeySizeWarning ∈
      validateOctConfig { kid := "k1", use := "sig", alg := "", size := 64 }
    ∧ hasOctError (validateOctConfig { kid := "k1", use := "sig", alg := "", size := 64 }) = false := by
  have h := octInsecureWarning_iff { kid := "k1", use := "sig", alg := "", size := 64 }
    (by decide) (by decide) (by decide)
  exact ⟨h.1.mpr (by decide), h.2⟩

/-- Counterexample to C4 as stated: use sig with alg RS256 (whose recommended
minimum is 2048) and size 1024 is below the algorithm's minimum and otherwise
valid, yet validation emits a blocking error diagnostic, not a warning. -/
theorem rsaSuboptimalWarning_counterexample :
    RSASignatureAlgorithms "RS256" = some 2048
    ∧ (1024 : Int) < 2048
    ∧ validateRSAConfig { kid := "k1", use := "sig", size := 1024, alg := "RS256" } =
        [RSADiag.sizeBelow2048]
    ∧ RSADiag.sizeBelow2048.severity = Severity.error
    ∧ hasRSAError (validateRSAConfig
        { kid := "k1", use := "sig", size := 1024, alg := "RS256" }) = true
    ∧ RSADiag.suboptimalKeySizeWarning ∉
        validateRSAConfig { kid := "k1", use := "sig", size := 1024, alg := "RS256" } := by
  decide

/-- C4 (amended): sizes below 2048 are rejected with a hard error regardless
of alg; for a use-sig configuration with a known signature algorithm and a
size of at least 2048 but below that algorithm's recommended minimum,
validation emits exactly the suboptimal-size warning, which is non-fatal, and
no error blocks creation. -/
theorem rsaSuboptimalWarning_not_error (m : RSAKeyModel) (expectedSize : Int)
    (hu : m.use = "sig")
    (halg : RSASignatureAlgorithms m.alg = some expectedSize)
    (hge : 2048 ≤ m.size) (hlt : m.size < expectedSize) :
    validateRSAConfig m = [RSADiag.suboptimalKeySizeWarning]
    ∧ RSADiag.suboptimalKeySizeWarning.severity = Severity.warning
    ∧ hasRSAError (validateRSAConfig m) = false := by
  have hnil : RSASignatureAlgorithms "" = none := by decide
  have hne : m.alg ≠ "" := by
    intro he
    rw [he, hnil] at halg
    exact absurd halg (by simp)
  have hcfg : validateRSAConfig m = [RSADiag.suboptimalKeySizeWarning] := by
    unfold validateRSAConfig
    rw [if_neg (by simp [isValid, validUses, hu]), if_neg (by omega),
      if_pos ⟨hne, hu⟩, halg]
    show (if m.size < expectedSize then [RSADiag.suboptimalKeySizeWarning]
      else []) = [RSADiag.suboptimalKeySizeWarning]
    rw [if_pos hlt]
  refine ⟨hcfg, rfl, ?_⟩
  rw [hcfg]
  rfl

/-- Witness for C4 (amended): RS384 with size 2048 draws exactly the
non-fatal warning. -/
theorem rsaSuboptimalWarning_not_error_witness :
    validateRSAConfig { kid := "k1", use := "sig", size := 2048, alg := "RS384" } =
      [RSADiag.suboptimalKeySizeWarning]
    ∧ RSADiag.suboptimalKeySizeWarning.severity = Severity.warning
    ∧ hasRSAError (validateRSAConfig
        { kid := "k1", use := "sig", size := 2048, alg := "RS384" }) = false :=
  rsaSuboptimalWarning_not_error
    { kid := "k1", use := "sig", size := 2048, alg := "RS384" } 3072
    rfl (by decide) (by decide) (by decide)

/-- C2: keyset creation fails exactly when some input element does not parse
as valid JSON; when every element parses, it returns the keyset envelope
holding the parsed elements in input order, none added, dropped or
reordered (the parsed list is the elementwise parse of the input and has the
input's length). -/
theorem CreateJWKKeyset_order_preserving (unmarshalRaw : String → Option String)
    (keys : List String) :
    ((∃ e, CreateJWKKeyset unmarshalRaw keys = Except.error e) ↔
      ∃ k, k ∈ keys ∧ unmarshalRaw k = none)
    ∧ ((∀ k, k ∈ keys → (unmarshalRaw k).isSome) →
        CreateJWKKeyset unmarshalRaw keys =
          Except.ok (marshalKeyset (keys.filterMap unmarshalRaw))
        ∧ (keys.filterMap unmarshalRaw).length = keys.length) := by
  have hcoll : ((∃ e, collectRawKeys unmarshalRaw keys = Except.error e) ↔
      ∃ k, k ∈ keys ∧ unmarshalRaw k = none)
      ∧ ((∀ k, k ∈ keys → (unmarshalRaw k).isSome) →
          collectRawKeys unmarshalRaw keys =
            Except.ok (keys.filterMap unmarshalRaw)) := by
    induction keys with
    | nil =>
      constructor
      · constructor
        · rintro ⟨e, he⟩
          exact absurd he (by simp [collectRawKeys])
        · rintro ⟨k, hk, _⟩
          exact absurd hk (by simp)
      · intro _
        rfl
    | cons x xs ih =>
      constructor
      · constructor
        · rintro ⟨e, he⟩
          unfold collectRawKeys at he
          rcases hx : unmarshalRaw x with _ | raw
          · exact ⟨x, by simp, hx⟩
          · rw [hx] at he
            rcases hrest : collectRawKeys unmarshalRaw xs with e2 | raws
            · obtain ⟨k, hk, hnone⟩ := ih.1.mp ⟨e2, hrest⟩
              exact ⟨k, by simp [hk], hnone⟩
            · rw [hrest] at he
              exact absurd he (by simp)
        · rintro ⟨k, hk, hnone⟩
          unfold collectRawKeys
          rcases List.mem_cons.mp hk with hkx | hkxs
          · subst hkx
            rw [hnone]
            exact ⟨"Invalid key JSON", rfl⟩
          · rcases hx : unmarshalRaw x with _ | raw
            · exact ⟨"Invalid key JSON", rfl⟩
            · obtain ⟨e2, hrest⟩ := ih.1.mpr ⟨k, hkxs, hnone⟩
              rw [hrest]
              exact ⟨e2, rfl⟩
      · intro hall
        have hx : (unmarshalRaw x).isSome := hall x (by simp)
        rcases hxv : unmarshalRaw x with _ | raw
        · rw [hxv] at hx
          exact absurd hx (by simp)
        · have hrest := ih.2 (fun k hk => hall k (by simp [hk]))
          unfold collectRawKeys
          rw [hxv, hrest]
          simp [List.filterMap_cons, hxv]
  constructor
  · unfold CreateJWKKeyset
    constructor
    · rintro ⟨e, he⟩
      rcases hc : collectRawKeys unmarshalRaw keys with e2 | raws
      · exact hcoll.1.mp ⟨e2, hc⟩
      · rw [hc] at he
        exact absurd he (by simp)
    · intro hbad
      obtain ⟨e2, hc⟩ := hcoll.1.mpr hbad
      rw [hc]
      exact ⟨e2, rfl⟩
  · intro hall
    have hlen : ∀ l : List String, (∀ k, k ∈ l → (unmarshalRaw k).isSome) →
        (l.filterMap unmarshalRaw).length = l.length := by
      intro l
      induction l with
      | nil =>
        intro _
        rfl
      | cons x xs ih2 =>
        intro hall2
        have hx : (unmarshalRaw x).isSome := hall2 x (by simp)
        rcases hxv : unmarshalRaw x with _ | raw
        · rw [hxv] at hx
          exact absurd hx (by simp)
        · simp [List.filterMap_cons, hxv,
            ih2 (fun k hk => hall2 k (by simp [hk]))]
    refine ⟨?_, hlen keys hall⟩
    unfold CreateJWKKeyset
    rw [hcoll.2 hall]

/-- Witness for C2: two elements that both parse produce the envelope in
input order. -/
theorem CreateJWKKeyset_order_preserving_witness :
    CreateJWKKeyset (fun s => if s = "bad" then none else some s) ["ka", "kb"] =
      Except.ok (marshalKeyset
        (["ka", "kb"].filterMap (fun s => if s = "bad" then none else some s)))
    ∧ (["ka", "kb"].filterMap
        (fun s => if s = "bad" then none else some s)).length = ["ka", "kb"].length :=
  (CreateJWKKeyset_order_preserving
    (fun s => if s = "bad" then none else some s) ["ka", "kb"]).2 (by decide)

/-- C6: on any input parsing as a private RSA or EC JWK, the public_key
function returns (as a pure function of its two arguments, hence
deterministically) the serialization of the key's public half as produced by
the library's `Public` extraction; the public JWK keeps the private key's
use, algorithm and kid, the kid being overridden by the kid argument exactly
when that argument is non-empty. -/
theorem publicKeyRun_extracts_public_half (parse : String → Option JoseJWK)
    (marshal : JoseJWK → String) (s kid : String) (jwk : JoseJWK)
    (hp : parse s = some jwk) (hpriv : jwk.key.isPrivateRSAorEC = true) :
    publicKeyRun parse marshal s kid =
      Except.ok (marshal
        { josePublic jwk with keyID := if kid = "" then jwk.keyID else kid })
    ∧ (josePublic jwk).keyID = jwk.keyID
    ∧ (josePublic jwk).use = jwk.use
    ∧ (josePublic jwk).algorithm = jwk.algorithm
    ∧ (josePublic jwk).key.isPublic = true := by
  obtain ⟨key, u, a, k0⟩ := jwk
  cases key with
  | rsaPriv n e d =>
    refine ⟨?_, rfl, rfl, rfl, rfl⟩
    by_cases hkid : kid = ""
    · subst hkid
      simp [publicKeyRun, hp, josePublic, KeyMaterial.isPublic]
    · simp [publicKeyRun, hp, josePublic, KeyMaterial.isPublic, hkid]
  | ecPriv crv x y d =>
    refine ⟨?_, rfl, rfl, rfl, rfl⟩
    by_cases hkid : kid = ""
    · subst hkid
      simp [publicKeyRun, hp, josePublic, KeyMaterial.isPublic]
    · simp [publicKeyRun, hp, josePublic, KeyMaterial.isPublic, hkid]
  | rsaPub n e => exact absurd hpriv (by simp [KeyMaterial.isPrivateRSAorEC])
  | ecPub crv x y => exact absurd hpriv (by simp [KeyMaterial.isPrivateRSAorEC])
  | ed25519Priv b => exact absurd hpriv (by simp [KeyMaterial.isPrivateRSAorEC])
  | ed25519Pub b => exact absurd hpriv (by simp [KeyMaterial.isPrivateRSAorEC])
  | octBytes b => exact absurd hpriv (by simp [KeyMaterial.isPrivateRSAorEC])

/-- Witness for C6: a concrete private RSA JWK, with a non-empty kid argument
taking precedence, under a marshaller that prints the kid. -/
theorem publicKeyRun_extracts_public_half_witness :
    publicKeyRun
      (fun t => if t = "priv" then
        some { key := KeyMaterial.rsaPriv 3233 17 413, use := "sig",
               algorithm := "RS256", keyID := "privkid" } else none)
      (fun j => j.keyID) "priv" "newkid" = Except.ok "newkid" := by
  have h := publicKeyRun_extracts_public_half
    (fun t => if t = "priv" then
      some { key := KeyMaterial.rsaPriv 3233 17 413, use := "sig",
             algorithm := "RS256", keyID := "privkid" } else none)
    (fun j => j.keyID) "priv" "newkid"
    { key := KeyMaterial.rsaPriv 3233 17 413, use := "sig",
      algorithm := "RS256", keyID := "privkid" }
    (by decide) (by decide)
  exact h.1.trans (by rfl)

/-- C7: the oct import derives the state from the document fields: it
succeeds exactly when the document parses as JSON with a string kid, a use
equal to sig or enc, a kty equal to oct and a base64url-decodable string k;
on success the state carries kid and use from the document, alg defaulting to
the empty string, size equal to eight times the decoded byte length of k, and
the json attribute equal to the imported document verbatim. -/
theorem octImportState_reverse_derives (parse : String → Option JObj) (id : String) :
    (∀ obj kid use k bytes, parse id = some obj →
      jStringField obj "kid" = some kid →
      jStringField obj "use" = some use → (use = "sig" ∨ use = "enc") →
      jStringField obj "kty" = some "oct" →
      jStringField obj "k" = some k → base64RawURLDecode k = some bytes →
      octImportState parse id = Except.ok
        { kid := kid, use := use, alg := (jStringField obj "alg").getD "",
          size := (bytes.length : Int) * 8, octKeyJSON := id })
    ∧ ((∃ st, octImportState parse id = Except.ok st) ↔
        ∃ obj, parse id = some obj
          ∧ (∃ kid, jStringField obj "kid" = some kid)
          ∧ (∃ use, jStringField obj "use" = some use ∧ (use = "sig" ∨ use = "enc"))
          ∧ jStringField obj "kty" = some "oct"
          ∧ (∃ k bytes, jStringField obj "k" = some k ∧ base64RawURLDecode k = some bytes)) := by
  have hsucc : ∀ obj kid use k bytes, parse id = some obj →
      jStringField obj "kid" = some kid →
      jStringField obj "use" = some use → (use = "sig" ∨ use = "enc") →
      jStringField obj "kty" = some "oct" →
      jStringField obj "k" = some k → base64RawURLDecode k = some bytes →
      octImportState parse id = Except.ok
        { kid := kid, use := use, alg := (jStringField obj "alg").getD "",
          size := (bytes.length : Int) * 8, octKeyJSON := id } := by
    intro obj kid use k bytes hobj hkid huse hu2 hkty hk hb
    unfold octImportState
    simp only [hobj, hkid, huse, hkty, hk, hb]
    rw [if_neg (by tauto), if_neg (by decide)]
  refine ⟨hsucc, ?_, ?_⟩
  · rintro ⟨st, hst⟩
    unfold octImportState at hst
    rcases hobj : parse id with _ | obj
    · rw [hobj] at hst
      simp at hst
    · simp only [hobj] at hst
      rcases hkid : jStringField obj "kid" with _ | kid
      · simp only [hkid] at hst
        simp at hst
      · simp only [hkid] at hst
        rcases huse : jStringField obj "use" with _ | use
        · simp only [huse] at hst
          simp at hst
        · simp only [huse] at hst
          by_cases hu2 : use ≠ "sig" ∧ use ≠ "enc"
          · rw [if_pos hu2] at hst
            simp at hst
          · rw [if_neg hu2] at hst
            push_neg at hu2
            rcases hkty : jStringField obj "kty" with _ | kty
            · simp only [hkty] at hst
              simp at hst
            · simp only [hkty] at hst
              by_cases hko : kty ≠ "oct"
              · rw [if_pos hko] at hst
                simp at hst
              · rw [if_neg hko] at hst
                push_neg at hko
                subst hko
                rcases hk : jStringField obj "k" with _ | k
                · simp only [hk] at hst
                  simp at hst
                · simp only [hk] at hst
                  rcases hb : base64RawURLDecode k with _ | bytes
                  · simp only [hb] at hst
                    simp at hst
                  · have huse2 : use = "sig" ∨ use = "enc" := by tauto
                    exact ⟨obj, rfl, ⟨kid, hkid⟩, ⟨use, huse, huse2⟩, hkty,
                      ⟨k, bytes, hk, hb⟩⟩
  · rintro ⟨obj, hobj, ⟨kid, hkid⟩, ⟨use, huse, hu2⟩, hkty, ⟨k, bytes, hk, hb⟩⟩
    exact ⟨_, hsucc obj kid use k bytes hobj hkid huse hu2 hkty hk hb⟩

/-- Witness for C7: a concrete oct JWK document with a four-character k field
is imported to a 24-bit key with kid, use and alg copied and the document
stored verbatim. -/
theorem octImportState_reverse_derives_witness :
    octImportState
      (fun t => if t = "doc" then
        some [("kid", JVal.str "a"), ("use", JVal.str "sig"),
              ("kty", JVal.str "oct"), ("k", JVal.str "AAAA")] else none)
      "doc" = Except.ok
        { kid := "a", use := "sig", alg := "", size := 24, octKeyJSON := "doc" } := by
  have h := (octImportState_reverse_derives
    (fun t => if t = "doc" then
      some [("kid", JVal.str "a"), ("use", JVal.str "sig"),
            ("kty", JVal.str "oct"), ("k", JVal.str "AAAA")] else none)
    "doc").1
    [("kid", JVal.str "a"), ("use", JVal.str "sig"),
     ("kty", JVal.str "oct"), ("k", JVal.str "AAAA")]
    "a" "sig" "AAAA" [0, 0, 0]
    (by decide) (by decide) (by decide) (Or.inl rfl) (by decide) (by decide) (by decide)
  exact h.trans (by rfl)

end JWKProvider
